import Mathlib

/-! firehose-sui: node argument templating, sync-state recovery, block canonicalization

A shallow embedding of

* `buildNodeArguments`, `replaceNodeRole` and `nodeFactoryFunc`
  (`cmd/firesui/cli/node.go`),
* `BlockFromProto` (`types/block.go`),

together with the Go standard-library string functions they call.

Go strings are modelled as lists of Unicode code points (`List Char`), i.e. as
valid UTF-8 text.  Logging calls have no effect on any returned value and are
left out.
-/

set_option autoImplicit false

namespace FirehoseSui

/-! ## Go strings -/

/-- A Go string, as the list of its code points. -/
abbrev GoString := List Char

/-- Go `unicode.IsSpace`: the Latin-1 space characters and the Unicode
`White_Space` property. -/
def IsSpace (r : Char) : Bool :=
  let n := r.toNat
  if n ≤ 0xFF then
    n == 0x09 || n == 0x0A || n == 0x0B || n == 0x0C || n == 0x0D || n == 0x20 ||
      n == 0x85 || n == 0xA0
  else
    n == 0x1680 || (0x2000 ≤ n && n ≤ 0x200A) || n == 0x2028 || n == 0x2029 ||
      n == 0x202F || n == 0x205F || n == 0x3000

/-- The scanning loop of Go `strings.Fields`: `cur` is the field being read. -/
def fieldsFrom : GoString → GoString → List GoString
  | cur, [] => if cur.isEmpty then [] else [cur]
  | cur, c :: cs =>
    if IsSpace c then
      if cur.isEmpty then fieldsFrom [] cs else cur :: fieldsFrom [] cs
    else fieldsFrom (cur ++ [c]) cs

/-- Go `strings.Fields`: the maximal runs of non-space characters of `s`, in order. -/
def Fields (s : GoString) : List GoString := fieldsFrom [] s

/-- The replacement loop of Go `strings.Replace(s, old, new, -1)` for a non-empty
`old`: scan left to right, and at every position where `old` starts emit `new`
and skip the `old.length` characters of the match (`skip` counts how many
characters of the current match are still to be skipped). -/
def replaceFrom (old new : GoString) : Nat → GoString → GoString
  | _, [] => []
  | skip + 1, _ :: cs => replaceFrom old new skip cs
  | 0, c :: cs =>
    if old.isPrefixOf (c :: cs) then new ++ replaceFrom old new (old.length - 1) cs
    else c :: replaceFrom old new 0 cs

/-- Go `strings.Replace(s, old, new, -1)`.  When `old` is empty Go inserts `new`
before every code point and at the end of `s`; when `old = new` the string is
returned unchanged. -/
def Replace (s old new : GoString) : GoString :=
  if old = new then s
  else if old.isEmpty then new ++ (s.map fun c => c :: new).flatten
  else replaceFrom old new 0 s

/-- Go `strings.HasPrefix`. -/
def HasPrefix (s pre : GoString) : Bool := pre.isPrefixOf s

/-! ## Go errors -/

/-- A Go `error` value: a sentinel value such as `fs.ErrNotExist`, an error made
by `fmt.Errorf` without `%w`, or one made by `fmt.Errorf("<msg>%w", inner)`, which
wraps `inner`. -/
inductive GoError where
  | sentinel (text : GoString)
  | errorf (text : GoString)
  | wrap (msg : GoString) (inner : GoError)
  deriving DecidableEq, Repr

namespace GoError

/-- The `Error()` text of an error. -/
def Error : GoError → GoString
  | sentinel t => t
  | errorf t => t
  | wrap m inner => m ++ inner.Error

/-- Go `errors.Unwrap`. -/
def Unwrap : GoError → Option GoError
  | wrap _ inner => some inner
  | _ => none

/-- Go `errors.Is`: `target` is `err` or occurs in the chain of errors `err` wraps. -/
def Is : GoError → GoError → Bool
  | wrap m inner, target => wrap m inner == target || inner.Is target
  | e, target => e == target

end GoError

/-- The sentinel `fs.ErrNotExist`. -/
def ErrNotExist : GoError := .sentinel "file does not exist".toList

/-! ## `cmd/firesui/cli/node.go` -/

/-- Go `replaceNodeRole`. -/
def replaceNodeRole (nodeRole inp : GoString) : GoString :=
  Replace inp "{node-role}".toList nodeRole

/-- The map `typeRoles` of `buildNodeArguments`: its only key is `"reader"`. -/
def typeRoles (resolvedNodeConfigFile nodeRole : GoString) : Option GoString :=
  if nodeRole = "reader".toList then
    some ("--config ".toList ++ resolvedNodeConfigFile ++ " {extra-arg}".toList)
  else none

/-- Go `buildNodeArguments`.  `Abs` is `filepath.Abs`, which depends on the
working directory of the process and is therefore a parameter. -/
def buildNodeArguments (Abs : GoString → Except GoError GoString)
    (nodeDataDir nodeConfigFile nodeRole args : GoString) : Except GoError (List GoString) :=
  let resolvedNodeConfigFile :=
    match Abs nodeConfigFile with
    | .ok p => p
    | .error _ => nodeConfigFile
  match typeRoles resolvedNodeConfigFile nodeRole with
  | none => .error (.errorf ("invalid node role: ".toList ++ nodeRole))
  | some argsString =>
    let argsString :=
      if HasPrefix args "+".toList then
        Replace argsString "{extra-arg}".toList (args.drop 1)
      else if args = [] then
        Replace argsString "{extra-arg}".toList []
      else args
    let argsString := Replace argsString "{node-data-dir}".toList nodeDataDir
    .ok (Fields argsString)

/-- The struct `readerNodeSyncState`. -/
structure readerNodeSyncState where
  BlockNum : Nat
  deriving DecidableEq, Repr

/-- The arguments `nodemanager.NewSuperviser` is called with (the loggers apart). -/
structure Superviser where
  nodePath : GoString
  nodeArguments : List GoString
  nodeDataDir : GoString
  debugFirehoseLogs : Bool
  logToZap : Bool
  lastBlockSeen : Nat
  deriving DecidableEq, Repr

/-- The struct `bootstrapper` (the logger apart). -/
structure bootstrapper where
  nodeDataDir : GoString
  nodeConfigFile : GoString
  resolvedNodeConfigFile : GoString
  nodeGenesisFile : GoString
  nodeWaypointFile : GoString
  nodeValidatorIdentityFile : GoString
  nodeVFNIdentityFile : GoString
  deriving DecidableEq, Repr

/-- A chain operator, as built by `operator.New` from a superviser and a bootstrapper. -/
structure Operator where
  superviser : Superviser
  bootstrapper : bootstrapper
  deriving DecidableEq, Repr

/-- The node-manager application the factory returns.  `mindreader` tells whether
the reader plugin is attached, `GRPCAddr` is set for the reader only. -/
structure App where
  HTTPAddr : GoString
  GRPCAddr : Option GoString
  operator : Operator
  mindreader : Bool
  deriving DecidableEq, Repr

/-- What the factory function needs from outside `node.go`: the flag values
(`viper`), the launcher runtime, `filepath`, and the functions of other files and
libraries it calls.  `operatorNew` and `getReaderLogPlugin` give the error of the
call, if any. -/
structure Host where
  GetString : GoString → GoString
  GetBool : GoString → Bool
  AbsDataDir : GoString
  mustReplaceDataDir : GoString → GoString → GoString
  Join : GoString → GoString → GoString
  Abs : GoString → Except GoError GoString
  readNodeSyncState : GoString → Except GoError readerNodeSyncState
  GetProtocolFirstStreamableBlock : Nat
  operatorNew : Superviser → bootstrapper → Option GoError
  getReaderLogPlugin : GoString → GoString → Option GoError

/-- How a call of the factory function ends. -/
inductive Outcome where
  | panicUnknownKind (kind : GoString)
  | error (err : GoError)
  | app (a : App)
  deriving DecidableEq, Repr

/-- A run of the factory function: the superviser and the operator it built on
the way, if it got that far, and how it ended. -/
structure FactoryRun where
  superviser : Option Superviser
  operator : Option Operator
  outcome : Outcome
  deriving DecidableEq, Repr

/-- The node data directory the factory function computes (`nodeDataDir`). -/
def Host.nodeDataDir (h : Host) (flagPrefix kind : GoString) : GoString :=
  replaceNodeRole kind
    (h.mustReplaceDataDir h.AbsDataDir (h.GetString (flagPrefix ++ "data-dir".toList)))

/-- The result of the call of `buildNodeArguments` in the factory function. -/
def Host.nodeArguments (h : Host) (flagPrefix kind : GoString) : Except GoError (List GoString) :=
  buildNodeArguments h.Abs (h.nodeDataDir flagPrefix kind)
    (h.Join (h.nodeDataDir flagPrefix kind) "node.yaml".toList) kind
    (h.GetString (flagPrefix ++ "arguments".toList))

/-- The path of the sync state file the factory function reads (`syncStateFile`). -/
def Host.syncStateFile (h : Host) : GoString :=
  h.Join (h.mustReplaceDataDir h.AbsDataDir (h.GetString "reader-node-working-dir".toList))
    "sync_state.json".toList

/-- The result of the call of `readNodeSyncState` in the factory function. -/
def Host.syncStateRead (h : Host) : Except GoError readerNodeSyncState :=
  h.readNodeSyncState h.syncStateFile

/-- The host `h` with the sync state file holding `st`. -/
def Host.withSyncState (h : Host) (st : readerNodeSyncState) : Host :=
  { h with readNodeSyncState := fun _ => .ok st }

/-- The function returned by Go `nodeFactoryFunc(flagPrefix, kind)`, run on a host. -/
def nodeFactoryFunc (h : Host) (flagPrefix kind : GoString) : FactoryRun :=
  if kind ≠ "node".toList ∧ kind ≠ "reader".toList then
    ⟨none, none, .panicUnknownKind kind⟩
  else
    let sfDataDir := h.AbsDataDir
    let nodePath := h.GetString (flagPrefix ++ "path".toList)
    let nodeDataDir := replaceNodeRole kind
      (h.mustReplaceDataDir sfDataDir (h.GetString (flagPrefix ++ "data-dir".toList)))
    let nodeConfigFile :=
      h.mustReplaceDataDir sfDataDir (h.GetString (flagPrefix ++ "config-file".toList))
    let nodeGenesisFile :=
      h.mustReplaceDataDir sfDataDir (h.GetString (flagPrefix ++ "genesis-file".toList))
    let nodeWaypointFile :=
      h.mustReplaceDataDir sfDataDir (h.GetString (flagPrefix ++ "waypoint-file".toList))
    let nodeValidatorIdentityFile := h.mustReplaceDataDir sfDataDir
      (h.GetString (flagPrefix ++ "validator-identity-file".toList))
    let nodeVFNIdentityFile :=
      h.mustReplaceDataDir sfDataDir (h.GetString (flagPrefix ++ "vfn-identity-file".toList))
    let resolvedNodeConfigFile := h.Join nodeDataDir "node.yaml".toList
    let debugFirehoseLogs := h.GetBool (flagPrefix ++ "debug-firehose-logs".toList)
    let logToZap := h.GetBool (flagPrefix ++ "log-to-zap".toList)
    let httpAddr := h.GetString (flagPrefix ++ "manager-api-addr".toList)
    let arguments := h.GetString (flagPrefix ++ "arguments".toList)
    match buildNodeArguments h.Abs nodeDataDir resolvedNodeConfigFile kind arguments with
    | .error _ => ⟨none, none, .error (.errorf "cannot build node bootstrap arguments".toList)⟩
    | .ok nodeArguments =>
      let readerWorkindDir :=
        h.mustReplaceDataDir sfDataDir (h.GetString "reader-node-working-dir".toList)
      let syncStateFile := h.Join readerWorkindDir "sync_state.json".toList
      let loaded : Except GoError readerNodeSyncState :=
        match h.readNodeSyncState syncStateFile with
        | .ok st => .ok st
        | .error err =>
          if !err.Is ErrNotExist then
            .error (.wrap "read node sync state: ".toList err)
          else
            let initialStartBlock := h.GetProtocolFirstStreamableBlock
            .ok { BlockNum := initialStartBlock }
      match loaded with
      | .error err => ⟨none, none, .error err⟩
      | .ok syncState =>
        let superviser : Superviser :=
          { nodePath := nodePath, nodeArguments := nodeArguments, nodeDataDir := nodeDataDir,
            debugFirehoseLogs := debugFirehoseLogs, logToZap := logToZap,
            lastBlockSeen := syncState.BlockNum }
        let bootstrapper : bootstrapper :=
          { nodeDataDir := nodeDataDir, nodeConfigFile := nodeConfigFile,
            resolvedNodeConfigFile := resolvedNodeConfigFile,
            nodeGenesisFile := nodeGenesisFile, nodeWaypointFile := nodeWaypointFile,
            nodeValidatorIdentityFile := nodeValidatorIdentityFile,
            nodeVFNIdentityFile := nodeVFNIdentityFile }
        match h.operatorNew superviser bootstrapper with
        | some err =>
          ⟨some superviser, none,
            .error (.wrap "unable to create chain operator: ".toList err)⟩
        | none =>
          let chainOperator : Operator := ⟨superviser, bootstrapper⟩
          if kind ≠ "reader".toList then
            ⟨some superviser, some chainOperator,
              .app { HTTPAddr := httpAddr, GRPCAddr := none, operator := chainOperator,
                     mindreader := false }⟩
          else
            let oneBlocksStoreURL :=
              h.mustReplaceDataDir sfDataDir (h.GetString "common-one-block-store-url".toList)
            let gprcListenAdrr := h.GetString "reader-node-grpc-listen-addr".toList
            match h.getReaderLogPlugin oneBlocksStoreURL readerWorkindDir with
            | some err =>
              ⟨some superviser, some chainOperator,
                .error (.wrap "new reader plugin: ".toList err)⟩
            | none =>
              ⟨some superviser, some chainOperator,
                .app { HTTPAddr := httpAddr, GRPCAddr := some gprcListenAdrr,
                       operator := chainOperator, mindreader := true }⟩

/-! ## `types/block.go` -/

/-- The enum `pbbstream.Protocol`. -/
inductive Protocol where
  | UNKNOWN | EOS | ETH | SOLANA | NEAR | COSMOS
  deriving DecidableEq, Repr

/-- The struct `bstream.Block`: its header fields and the payload bytes a payload
setter stores.  `Timestamp` is a `time.Time`, held as nanoseconds since the epoch. -/
structure Block where
  Id : GoString
  Number : Nat
  PreviousId : GoString
  Timestamp : Int
  LibNum : Nat
  PayloadKind : Protocol
  PayloadVersion : Int
  Payload : Option (List Nat)
  deriving DecidableEq, Repr

/-- What `BlockFromProto` uses of the generated type `pbsui.Block` (a native block
of type `β`): its five accessor methods, and `proto.Marshal` on it. -/
structure NativeBlockOps (β : Type) where
  ID : β → GoString
  Number : β → Nat
  PreviousID : β → GoString
  Time : β → Int
  LIBNum : β → Nat
  Marshal : β → Except GoError (List Nat)

/-- The type `bstream.BlockPayloadSetter`. -/
abbrev BlockPayloadSetter := Block → List Nat → Except GoError Block

/-- Go `BlockFromProto`.  `GetBlockPayloadSetter` is the package variable
`bstream.GetBlockPayloadSetter`. -/
def BlockFromProto {β : Type} (ops : NativeBlockOps β)
    (GetBlockPayloadSetter : BlockPayloadSetter) (b : β) : Except GoError Block :=
  match ops.Marshal b with
  | .error err =>
    .error (.errorf ("unable to marshal to binary form: ".toList ++ err.Error))
  | .ok content =>
    let block : Block :=
      { Id := ops.ID b
        Number := ops.Number b
        PreviousId := ops.PreviousID b
        Timestamp := ops.Time b
        LibNum := ops.LIBNum b
        PayloadKind := .UNKNOWN
        PayloadVersion := 1
        Payload := none }
    GetBlockPayloadSetter block content

/-! ## Sample hosts and blocks -/

/-- A host with the default flag values of the reader node, no sync state file,
and first streamable block `firstBlock`. -/
def freshHost (firstBlock : Nat) : Host where
  GetString := fun name =>
    if name = "reader-node-data-dir".toList then "{data-dir}/{node-role}/data".toList
    else if name = "reader-node-working-dir".toList then "{data-dir}/reader/work".toList
    else []
  GetBool := fun _ => true
  AbsDataDir := "/fh".toList
  mustReplaceDataDir := fun dataDir inp => Replace inp "{data-dir}".toList dataDir
  Join := fun a b => a ++ "/".toList ++ b
  Abs := fun p => .ok p
  readNodeSyncState := fun _ => .error (.wrap "open sync_state.json: ".toList ErrNotExist)
  GetProtocolFirstStreamableBlock := firstBlock
  operatorNew := fun _ _ => none
  getReaderLogPlugin := fun _ _ => none

/-- The host `freshHost` with a sync state file that cannot be parsed. -/
def corruptHost (firstBlock : Nat) : Host :=
  { freshHost firstBlock with
    readNodeSyncState := fun _ => .error (.errorf "unexpected end of JSON input".toList) }

/-- A payload setter that keeps the bytes in the block itself and never fails, as
`bstream.MemoryBlockPayloadSetter` does. -/
def memoryPayloadSetter : BlockPayloadSetter :=
  fun block data => .ok { block with Payload := some data }

/-- A payload setter that returns a fresh block holding the bytes and nothing of the
block it was given: every header field has the zero value of its Go type. -/
def freshBlockPayloadSetter : BlockPayloadSetter :=
  fun _ data =>
    .ok { Id := [], Number := 0, PreviousId := [], Timestamp := 0, LibNum := 0,
          PayloadKind := .UNKNOWN, PayloadVersion := 0, Payload := some data }

/-- A payload setter whose store refuses the bytes. -/
def rejectingPayloadSetter : BlockPayloadSetter :=
  fun _ _ => .error (.errorf "payload store unavailable".toList)

/-- A payload setter keeps the header when the block it returns has the id, number
and previous id of the block it was given. -/
def KeepsHeader (setter : BlockPayloadSetter) : Prop :=
  ∀ block data r, setter block data = .ok r →
    r.Id = block.Id ∧ r.Number = block.Number ∧ r.PreviousId = block.PreviousId

/-- A list of `(id, previous id)` pairs is linked when every previous id is the id
of the pair just before it. -/
def Linked : List (GoString × GoString) → Bool
  | a :: b :: rest => (b.2 == a.1) && Linked (b :: rest)
  | _ => true

/-- A native block given by the values of its accessors and its wire bytes. -/
structure SampleBlock where
  id : GoString
  number : Nat
  previousId : GoString
  time : Int
  libNum : Nat
  wire : List Nat
  deriving DecidableEq, Repr

/-- The accessors of `SampleBlock`; serialization always succeeds. -/
def sampleOps : NativeBlockOps SampleBlock where
  ID := SampleBlock.id
  Number := SampleBlock.number
  PreviousID := SampleBlock.previousId
  Time := SampleBlock.time
  LIBNum := SampleBlock.libNum
  Marshal := fun b => .ok b.wire

/-- Native block number 1. -/
def sampleBlock1 : SampleBlock :=
  { id := "1".toList, number := 1, previousId := "0".toList, time := 1000, libNum := 0,
    wire := [8, 1] }

/-- Native block number 2, the child of `sampleBlock1`. -/
def sampleBlock2 : SampleBlock :=
  { id := "2".toList, number := 2, previousId := "1".toList, time := 2000, libNum := 1,
    wire := [8, 2] }

/-- Native block number 3, whose previous id names block 2. -/
def sampleBlock3 : SampleBlock :=
  { id := "3".toList, number := 3, previousId := "2".toList, time := 3000, libNum := 2,
    wire := [8, 3] }

/-- The host `freshHost` started with a data directory whose name has a blank. -/
def blankDirHost : Host :=
  { freshHost 0 with AbsDataDir := "/srv/my data".toList }

/-! ## The factory function and the sync state -/

theorem buildNodeArguments_invalid_role (Abs : GoString → Except GoError GoString)
    (nodeDataDir nodeConfigFile nodeRole args : GoString) (hk : nodeRole ≠ "reader".toList) :
    buildNodeArguments Abs nodeDataDir nodeConfigFile nodeRole args =
      .error (.errorf ("invalid node role: ".toList ++ nodeRole)) := by
  simp only [buildNodeArguments, typeRoles, if_neg hk]

theorem nodeArguments_ok_kind {h : Host} {flagPrefix kind : GoString} {nodeArguments : List GoString}
    (hargs : h.nodeArguments flagPrefix kind = .ok nodeArguments) : kind = "reader".toList := by
  by_contra hk
  rw [Host.nodeArguments, buildNodeArguments_invalid_role _ _ _ _ _ hk] at hargs
  cases hargs

/-- The run of the factory function once the node arguments are built: it depends
on the sync state read only through the state it resumes from. -/
theorem nodeFactoryFunc_run (h : Host) (flagPrefix kind : GoString) (nodeArguments : List GoString)
    (hargs : h.nodeArguments flagPrefix kind = .ok nodeArguments) :
    (∀ st, h.syncStateRead = .ok st →
      ∃ s, (nodeFactoryFunc h flagPrefix kind).superviser = some s ∧
        s.lastBlockSeen = st.BlockNum) ∧
    (∀ err, h.syncStateRead = .error err → err.Is ErrNotExist = true →
      (∃ s, (nodeFactoryFunc h flagPrefix kind).superviser = some s ∧
        s.lastBlockSeen = h.GetProtocolFirstStreamableBlock) ∧
      (nodeFactoryFunc h flagPrefix kind).outcome ≠
        .error (.wrap "read node sync state: ".toList err) ∧
      nodeFactoryFunc h flagPrefix kind =
        nodeFactoryFunc (h.withSyncState ⟨h.GetProtocolFirstStreamableBlock⟩) flagPrefix kind) ∧
    (∀ err, h.syncStateRead = .error err → err.Is ErrNotExist = false →
      nodeFactoryFunc h flagPrefix kind =
        ⟨none, none, .error (.wrap "read node sync state: ".toList err)⟩) := by
  have hk := nodeArguments_ok_kind hargs
  subst hk
  have hkind : ¬ ("reader".toList ≠ "node".toList ∧ "reader".toList ≠ "reader".toList) := by
    decide
  simp only [Host.nodeArguments, Host.nodeDataDir] at hargs
  refine ⟨?_, ?_, ?_⟩
  · intro st hst
    simp only [Host.syncStateRead, Host.syncStateFile] at hst
    simp only [nodeFactoryFunc, if_neg hkind, hargs, hst]
    split
    · exact ⟨_, rfl, rfl⟩
    · split
      · exact ⟨_, rfl, rfl⟩
      · split <;> exact ⟨_, rfl, rfl⟩
  · intro err herr his
    simp only [Host.syncStateRead, Host.syncStateFile] at herr
    refine ⟨?_, ?_, ?_⟩
    · simp only [nodeFactoryFunc, if_neg hkind, hargs, herr, his, Bool.not_true, Bool.not_false,
        Bool.false_eq_true, if_false, if_true]
      split
      · exact ⟨_, rfl, rfl⟩
      · split
        · exact ⟨_, rfl, rfl⟩
        · split <;> exact ⟨_, rfl, rfl⟩
    · simp only [nodeFactoryFunc, if_neg hkind, hargs, herr, his, Bool.not_true, Bool.not_false,
        Bool.false_eq_true, if_false, if_true]
      split
      · simp
      · split
        · simp
        · split <;> simp
    · simp only [nodeFactoryFunc, Host.withSyncState, if_neg hkind, hargs, herr, his,
        Bool.not_true, Bool.false_eq_true, if_false]
  · intro err herr his
    simp only [Host.syncStateRead, Host.syncStateFile] at herr
    simp only [nodeFactoryFunc, if_neg hkind, hargs, herr, his, Bool.not_true, Bool.not_false,
        Bool.false_eq_true, if_false, if_true]

/-- C1: once the node arguments are built, a sync state read that fails with an
error that is `fs.ErrNotExist` does not make the factory fail (the run is the run
on a state file holding the first streamable block, and its outcome is not the
read error), and the superviser gets `bstream.GetProtocolFirstStreamableBlock` as
resume block; a read that succeeds hands the loaded `BlockNum` to the superviser. -/
theorem nodeFactoryFunc_resume_block (h : Host) (flagPrefix kind : GoString)
    (nodeArguments : List GoString)
    (hargs : h.nodeArguments flagPrefix kind = .ok nodeArguments) :
    (∀ err, h.syncStateRead = .error err → err.Is ErrNotExist = true →
      (nodeFactoryFunc h flagPrefix kind).superviser.map Superviser.lastBlockSeen =
          some h.GetProtocolFirstStreamableBlock ∧
        (nodeFactoryFunc h flagPrefix kind).outcome ≠
          .error (.wrap "read node sync state: ".toList err) ∧
        nodeFactoryFunc h flagPrefix kind =
          nodeFactoryFunc (h.withSyncState ⟨h.GetProtocolFirstStreamableBlock⟩)
            flagPrefix kind) ∧
    (∀ st, h.syncStateRead = .ok st →
      (nodeFactoryFunc h flagPrefix kind).superviser.map Superviser.lastBlockSeen =
        some st.BlockNum) := by
  obtain ⟨hok, hmissing, _⟩ := nodeFactoryFunc_run h flagPrefix kind nodeArguments hargs
  refine ⟨?_, ?_⟩
  · intro err herr his
    obtain ⟨⟨s, hs, hb⟩, hout, hsame⟩ := hmissing err herr his
    refine ⟨?_, hout, hsame⟩
    rw [hs, Option.map_some', hb]
  · intro st hst
    obtain ⟨s, hs, hb⟩ := hok st hst
    rw [hs, Option.map_some', hb]

theorem nodeFactoryFunc_resume_block_witness :
    (freshHost 7).nodeArguments "reader-node-".toList "reader".toList =
        .ok ["--config".toList, "/fh/reader/data/node.yaml".toList] ∧
      (freshHost 7).syncStateRead =
        .error (.wrap "open sync_state.json: ".toList ErrNotExist) ∧
      (nodeFactoryFunc (freshHost 7) "reader-node-".toList "reader".toList).superviser.map
        Superviser.lastBlockSeen = some 7 :=
  ⟨rfl, rfl,
    ((nodeFactoryFunc_resume_block (freshHost 7) "reader-node-".toList "reader".toList
      ["--config".toList, "/fh/reader/data/node.yaml".toList] rfl).1
      (.wrap "open sync_state.json: ".toList ErrNotExist) rfl rfl).1⟩

/-- C2: once the node arguments are built, a sync state read that fails with an
error that is not `fs.ErrNotExist` makes the factory return the error
`read node sync state: ` wrapping it, with no app, no superviser and no operator
built (so no resume block is substituted). -/
theorem nodeFactoryFunc_corrupt_state (h : Host) (flagPrefix kind : GoString)
    (nodeArguments : List GoString) (err : GoError)
    (hargs : h.nodeArguments flagPrefix kind = .ok nodeArguments)
    (herr : h.syncStateRead = .error err) (hne : err.Is ErrNotExist = false) :
    (nodeFactoryFunc h flagPrefix kind).outcome =
        .error (.wrap "read node sync state: ".toList err) ∧
      (GoError.wrap "read node sync state: ".toList err).Unwrap = some err ∧
      (GoError.wrap "read node sync state: ".toList err).Is err = true ∧
      (nodeFactoryFunc h flagPrefix kind).superviser = none ∧
      (nodeFactoryFunc h flagPrefix kind).operator = none := by
  obtain ⟨_, _, hbad⟩ := nodeFactoryFunc_run h flagPrefix kind nodeArguments hargs
  rw [hbad err herr hne]
  refine ⟨rfl, rfl, ?_, rfl, rfl⟩
  cases err <;> simp [GoError.Is]

theorem nodeFactoryFunc_corrupt_state_witness :
    (corruptHost 7).syncStateRead = .error (.errorf "unexpected end of JSON input".toList) ∧
      (nodeFactoryFunc (corruptHost 7) "reader-node-".toList "reader".toList).outcome =
        .error (.wrap "read node sync state: ".toList
          (.errorf "unexpected end of JSON input".toList)) ∧
      (nodeFactoryFunc (corruptHost 7) "reader-node-".toList "reader".toList).superviser = none :=
  have hw := nodeFactoryFunc_corrupt_state (corruptHost 7) "reader-node-".toList
    "reader".toList ["--config".toList, "/fh/reader/data/node.yaml".toList]
    (.errorf "unexpected end of JSON input".toList) rfl rfl rfl
  ⟨rfl, hw.1, hw.2.2.2.1⟩

/-! ## Block canonicalization -/

/-- What `BlockFromProto` returns when the native block serializes to `content`:
the result of the payload setter on the block built from the accessors. -/
theorem BlockFromProto_of_marshal {β : Type} (ops : NativeBlockOps β)
    (setter : BlockPayloadSetter) (b : β) (content : List Nat)
    (hm : ops.Marshal b = .ok content) :
    BlockFromProto ops setter b =
      setter
        { Id := ops.ID b, Number := ops.Number b, PreviousId := ops.PreviousID b,
          Timestamp := ops.Time b, LibNum := ops.LIBNum b, PayloadKind := .UNKNOWN,
          PayloadVersion := 1, Payload := none }
        content := by
  simp only [BlockFromProto, hm]

theorem BlockFromProto_marshal_of_ok {β : Type} (ops : NativeBlockOps β)
    (setter : BlockPayloadSetter) (b : β) (r : Block)
    (hok : BlockFromProto ops setter b = .ok r) : ∃ content, ops.Marshal b = .ok content := by
  cases hm : ops.Marshal b with
  | ok content => exact ⟨content, rfl⟩
  | error err => simp [BlockFromProto, hm] at hok

/-- C3: when `BlockFromProto` succeeds on a native block `b`, the payload setter was
given the serialization of `b` together with a block whose `Id`, `Number`,
`PreviousId`, `Timestamp` and `LibNum` are the values of the accessors of `b`, whose
`PayloadVersion` is 1 and whose `PayloadKind` is `Protocol_UNKNOWN`, and the result
is what the setter returned. -/
theorem BlockFromProto_header {β : Type} (ops : NativeBlockOps β)
    (setter : BlockPayloadSetter) (b : β) (r : Block)
    (hok : BlockFromProto ops setter b = .ok r) :
    ∃ block content, ops.Marshal b = .ok content ∧ setter block content = .ok r ∧
      block.Id = ops.ID b ∧ block.Number = ops.Number b ∧
      block.PreviousId = ops.PreviousID b ∧ block.Timestamp = ops.Time b ∧
      block.LibNum = ops.LIBNum b ∧ block.PayloadVersion = 1 ∧
      block.PayloadKind = Protocol.UNKNOWN := by
  obtain ⟨content, hm⟩ := BlockFromProto_marshal_of_ok ops setter b r hok
  rw [BlockFromProto_of_marshal ops setter b content hm] at hok
  exact ⟨_, content, hm, hok, rfl, rfl, rfl, rfl, rfl, rfl, rfl⟩

theorem BlockFromProto_header_witness :
    BlockFromProto sampleOps memoryPayloadSetter sampleBlock3 =
        .ok { Id := "3".toList, Number := 3, PreviousId := "2".toList, Timestamp := 3000,
              LibNum := 2, PayloadKind := .UNKNOWN, PayloadVersion := 1,
              Payload := some [8, 3] } ∧
      ∃ block content, sampleOps.Marshal sampleBlock3 = .ok content ∧
        memoryPayloadSetter block content =
          .ok { Id := "3".toList, Number := 3, PreviousId := "2".toList, Timestamp := 3000,
                LibNum := 2, PayloadKind := .UNKNOWN, PayloadVersion := 1,
                Payload := some [8, 3] } ∧
        block.Id = sampleOps.ID sampleBlock3 ∧ block.Number = sampleOps.Number sampleBlock3 ∧
        block.PreviousId = sampleOps.PreviousID sampleBlock3 ∧
        block.Timestamp = sampleOps.Time sampleBlock3 ∧
        block.LibNum = sampleOps.LIBNum sampleBlock3 ∧ block.PayloadVersion = 1 ∧
        block.PayloadKind = Protocol.UNKNOWN :=
  ⟨rfl, BlockFromProto_header sampleOps memoryPayloadSetter sampleBlock3 _ rfl⟩

/-- C4 fails as stated: the native block `sampleBlock1` serializes, and with a
payload setter that returns an error `BlockFromProto` returns that error. -/
theorem BlockFromProto_setter_error :
    sampleOps.Marshal sampleBlock1 = .ok [8, 1] ∧
      BlockFromProto sampleOps rejectingPayloadSetter sampleBlock1 =
        .error (.errorf "payload store unavailable".toList) :=
  ⟨rfl, rfl⟩

/-- C4, amended: `BlockFromProto` fails when the native block cannot be serialized,
and for a native block whose serialization succeeds it returns what the payload
setter returns on the block it built: a block and no error when the setter
succeeds, the error of the setter otherwise. -/
theorem BlockFromProto_error_sources {β : Type} (ops : NativeBlockOps β)
    (setter : BlockPayloadSetter) (b : β) :
    (∀ err, ops.Marshal b = .error err →
      BlockFromProto ops setter b =
        .error (.errorf ("unable to marshal to binary form: ".toList ++ err.Error))) ∧
    (∀ content, ops.Marshal b = .ok content →
      ∃ block, BlockFromProto ops setter b = setter block content ∧
        (∀ r, setter block content = .ok r → BlockFromProto ops setter b = .ok r) ∧
        (∀ err, setter block content = .error err →
          BlockFromProto ops setter b = .error err)) := by
  refine ⟨?_, ?_⟩
  · intro err hm
    simp only [BlockFromProto, hm]
  · intro content hm
    refine ⟨_, BlockFromProto_of_marshal ops setter b content hm, ?_, ?_⟩
    · intro r hr
      rw [BlockFromProto_of_marshal ops setter b content hm, hr]
    · intro err he
      rw [BlockFromProto_of_marshal ops setter b content hm, he]

theorem BlockFromProto_error_sources_witness :
    sampleOps.Marshal sampleBlock1 = .ok [8, 1] ∧
      ∃ block, BlockFromProto sampleOps memoryPayloadSetter sampleBlock1 =
          memoryPayloadSetter block [8, 1] ∧
        (∀ r, memoryPayloadSetter block [8, 1] = .ok r →
          BlockFromProto sampleOps memoryPayloadSetter sampleBlock1 = .ok r) ∧
        (∀ err, memoryPayloadSetter block [8, 1] = .error err →
          BlockFromProto sampleOps memoryPayloadSetter sampleBlock1 = .error err) :=
  ⟨rfl, (BlockFromProto_error_sources sampleOps memoryPayloadSetter sampleBlock1).2 [8, 1] rfl⟩

theorem blockFromProto_keepsHeader {β : Type} (ops : NativeBlockOps β)
    (setter : BlockPayloadSetter) (hkeep : KeepsHeader setter) (b : β) (r : Block)
    (hok : BlockFromProto ops setter b = .ok r) :
    r.Id = ops.ID b ∧ r.Number = ops.Number b ∧ r.PreviousId = ops.PreviousID b := by
  obtain ⟨content, hm⟩ := BlockFromProto_marshal_of_ok ops setter b r hok
  rw [BlockFromProto_of_marshal ops setter b content hm] at hok
  exact hkeep _ _ _ hok

theorem memoryPayloadSetter_keepsHeader : KeepsHeader memoryPayloadSetter := by
  intro block data r hr
  simp only [memoryPayloadSetter, Except.ok.injEq] at hr
  subst hr
  exact ⟨rfl, rfl, rfl⟩

theorem blockFromProto_maps {β : Type} (ops : NativeBlockOps β)
    (setter : BlockPayloadSetter) (hkeep : KeepsHeader setter) (bs : List β) (rs : List Block)
    (hrun : List.Forall₂ (fun b r => BlockFromProto ops setter b = .ok r) bs rs) :
    rs.map Block.Number = bs.map ops.Number ∧
      rs.map (fun r => (r.Id, r.PreviousId)) = bs.map (fun b => (ops.ID b, ops.PreviousID b)) := by
  induction hrun with
  | nil => exact ⟨rfl, rfl⟩
  | cons hhead _ ih =>
    obtain ⟨hid, hnum, hprev⟩ := blockFromProto_keepsHeader ops setter hkeep _ _ hhead
    simp only [List.map_cons, ih.1, ih.2, hid, hnum, hprev, and_self]

/-- C5 fails as stated: `sampleBlock1` and `sampleBlock2` form a linear feed with
strictly increasing numbers (block 2 names block 1 as its parent) and
`BlockFromProto` succeeds on both, yet with a payload setter that returns a fresh
block the two canonical blocks both have `Number` 0, which is not strictly
increasing. -/
theorem BlockFromProto_fresh_block_order :
    (([sampleBlock1, sampleBlock2].map sampleOps.Number).Pairwise (· < ·)) ∧
      Linked ([sampleBlock1, sampleBlock2].map fun b => (sampleOps.ID b, sampleOps.PreviousID b))
        = true ∧
      ∃ r1 r2, BlockFromProto sampleOps freshBlockPayloadSetter sampleBlock1 = .ok r1 ∧
        BlockFromProto sampleOps freshBlockPayloadSetter sampleBlock2 = .ok r2 ∧
        ¬ (([r1, r2].map Block.Number).Pairwise (· < ·)) :=
  ⟨by decide, by decide, _, _, rfl, rfl, by decide⟩

/-- C5, amended: for native blocks of a linear feed (every `PreviousID()` is the
`ID()` of the native block before it) with strictly increasing numbers, on which
`BlockFromProto` succeeds with a payload setter that keeps the header, the
canonical blocks have strictly increasing `Number` and every `PreviousId` is the
`Id` of the canonical block emitted just before it; their ids and previous ids are
those of the native blocks. -/
theorem BlockFromProto_sequence {β : Type} (ops : NativeBlockOps β)
    (setter : BlockPayloadSetter) (bs : List β) (rs : List Block)
    (hkeep : KeepsHeader setter)
    (hrun : List.Forall₂ (fun b r => BlockFromProto ops setter b = .ok r) bs rs)
    (hinc : (bs.map ops.Number).Pairwise (· < ·))
    (hlinear : Linked (bs.map fun b => (ops.ID b, ops.PreviousID b)) = true) :
    (rs.map Block.Number).Pairwise (· < ·) ∧
      Linked (rs.map fun r => (r.Id, r.PreviousId)) = true ∧
      rs.map Block.PreviousId = bs.map ops.PreviousID ∧
      rs.map Block.Id = bs.map ops.ID := by
  obtain ⟨hnum, hids⟩ := blockFromProto_maps ops setter hkeep bs rs hrun
  refine ⟨by rw [hnum]; exact hinc, by rw [hids]; exact hlinear, ?_, ?_⟩
  · have h2 := congrArg (List.map Prod.snd) hids
    simpa [List.map_map, Function.comp_def] using h2
  · have h1 := congrArg (List.map Prod.fst) hids
    simpa [List.map_map, Function.comp_def] using h1

theorem BlockFromProto_sequence_witness :
    (([sampleBlock1, sampleBlock2].map sampleOps.Number).Pairwise (· < ·)) ∧
      Linked ([sampleBlock1, sampleBlock2].map fun b => (sampleOps.ID b, sampleOps.PreviousID b))
        = true ∧
      ∃ rs : List Block,
        List.Forall₂ (fun b r => BlockFromProto sampleOps memoryPayloadSetter b = .ok r)
          [sampleBlock1, sampleBlock2] rs ∧
        (rs.map Block.Number).Pairwise (· < ·) ∧
        Linked (rs.map fun r => (r.Id, r.PreviousId)) = true ∧
        rs.map Block.PreviousId = [sampleBlock1, sampleBlock2].map sampleOps.PreviousID ∧
        rs.map Block.Id = [sampleBlock1, sampleBlock2].map sampleOps.ID :=
  ⟨by decide, by decide,
    [{ Id := "1".toList, Number := 1, PreviousId := "0".toList, Timestamp := 1000,
       LibNum := 0, PayloadKind := .UNKNOWN, PayloadVersion := 1, Payload := some [8, 1] },
     { Id := "2".toList, Number := 2, PreviousId := "1".toList, Timestamp := 2000,
       LibNum := 1, PayloadKind := .UNKNOWN, PayloadVersion := 1, Payload := some [8, 2] }],
    .cons rfl (.cons rfl .nil),
    BlockFromProto_sequence sampleOps memoryPayloadSetter [sampleBlock1, sampleBlock2]
      [{ Id := "1".toList, Number := 1, PreviousId := "0".toList, Timestamp := 1000,
         LibNum := 0, PayloadKind := .UNKNOWN, PayloadVersion := 1, Payload := some [8, 1] },
       { Id := "2".toList, Number := 2, PreviousId := "1".toList, Timestamp := 2000,
         LibNum := 1, PayloadKind := .UNKNOWN, PayloadVersion := 1, Payload := some [8, 2] }]
      memoryPayloadSetter_keepsHeader
      (.cons rfl (.cons rfl .nil)) (by decide) (by decide)⟩

/-! ## Go string functions: replacing and splitting around a separator -/

theorem isPrefixOf_append_sep (old : GoString) (sep : Char) (hsep : sep ∉ old) :
    ∀ a b : GoString, old.isPrefixOf (a ++ sep :: b) = old.isPrefixOf a := by
  induction old with
  | nil => intro a b; cases a <;> rfl
  | cons o os ih =>
    intro a b
    have ho : o ≠ sep := fun h => hsep (h ▸ List.mem_cons_self _ _)
    have hos : sep ∉ os := fun h => hsep (List.mem_cons_of_mem _ h)
    cases a with
    | nil => simp [List.isPrefixOf, ho]
    | cons x a => simp [List.isPrefixOf, ih hos a b]

theorem isPrefixOf_length_le (old : GoString) :
    ∀ s : GoString, old.isPrefixOf s = true → old.length ≤ s.length := by
  intro s h
  exact (List.isPrefixOf_iff_prefix.1 h).length_le

theorem replaceFrom_skip_all (old new : GoString) :
    ∀ (s : GoString) (skip : Nat), s.length ≤ skip → replaceFrom old new skip s = [] := by
  intro s
  induction s with
  | nil => intro skip _; cases skip <;> rfl
  | cons c cs ih =>
    intro skip h
    cases skip with
    | zero => simp at h
    | succ k =>
      simp only [replaceFrom]
      exact ih k (by simpa using h)

theorem replaceFrom_sep (old new : GoString) (sep : Char) (hsep : sep ∉ old) (hne : old ≠ [])
    (b : GoString) :
    ∀ (a : GoString) (skip : Nat), skip ≤ a.length →
      replaceFrom old new skip (a ++ sep :: b) =
        replaceFrom old new skip a ++ sep :: replaceFrom old new 0 b := by
  intro a
  induction a with
  | nil =>
    intro skip h
    have hs : skip = 0 := by simpa using h
    subst hs
    have hp : old.isPrefixOf (sep :: b) = false := by
      have := isPrefixOf_append_sep old sep hsep [] b
      rw [List.nil_append] at this
      rw [this]
      cases old with
      | nil => exact absurd rfl hne
      | cons o os => rfl
    simp [replaceFrom, hp]
  | cons c cs ih =>
    intro skip h
    cases skip with
    | succ k =>
      simp only [List.cons_append, replaceFrom]
      exact ih k (by simpa using h)
    | zero =>
      have hpre : old.isPrefixOf (c :: cs ++ sep :: b) = old.isPrefixOf (c :: cs) :=
        isPrefixOf_append_sep old sep hsep (c :: cs) b
      rw [List.cons_append] at hpre
      by_cases hp : old.isPrefixOf (c :: cs) = true
      · have hlen := isPrefixOf_length_le old (c :: cs) hp
        have hk : old.length - 1 ≤ cs.length := by
          simp only [List.length_cons] at hlen
          omega
        simp only [List.cons_append, replaceFrom, List.append_eq, hpre, hp, if_true, ih _ hk,
          List.append_assoc]
      · simp only [List.cons_append, replaceFrom, List.append_eq, hpre, hp, if_false,
          ih 0 (Nat.zero_le _), Bool.false_eq_true]

theorem replaceFrom_of_not_infix (old new : GoString) :
    ∀ s : GoString, ¬ old <:+: s → replaceFrom old new 0 s = s := by
  intro s
  induction s with
  | nil => intro _; rfl
  | cons c cs ih =>
    intro h
    have hp : old.isPrefixOf (c :: cs) = false := by
      cases hq : old.isPrefixOf (c :: cs) with
      | false => rfl
      | true => exact absurd (List.isPrefixOf_iff_prefix.1 hq).isInfix h
    have hcs : ¬ old <:+: cs := fun hi => h (List.infix_cons hi)
    simp [replaceFrom, hp, ih hcs]

theorem Replace_sep (old new a b : GoString) (sep : Char) (hne : old ≠ []) (hsep : sep ∉ old) :
    Replace (a ++ sep :: b) old new = Replace a old new ++ sep :: Replace b old new := by
  have he : old.isEmpty = false := by cases old with
    | nil => exact absurd rfl hne
    | cons _ _ => rfl
  unfold Replace
  by_cases h : old = new
  · simp only [if_pos h]
  · simp only [if_neg h, he, Bool.false_eq_true, if_false]
    exact replaceFrom_sep old new sep hsep hne b a 0 (Nat.zero_le _)

theorem Replace_of_not_infix (s old new : GoString) (hne : old ≠ []) (h : ¬ old <:+: s) :
    Replace s old new = s := by
  have he : old.isEmpty = false := by cases old with
    | nil => exact absurd rfl hne
    | cons _ _ => rfl
  unfold Replace
  by_cases hon : old = new
  · simp only [if_pos hon]
  · simp only [if_neg hon, he, Bool.false_eq_true, if_false]
    exact replaceFrom_of_not_infix old new s h

theorem Replace_pattern (old new : GoString) (hne : old ≠ []) : Replace old old new = new := by
  unfold Replace
  by_cases hon : old = new
  · simp only [if_pos hon]; exact hon
  · cases old with
    | nil => exact absurd rfl hne
    | cons o os =>
      have hp : (o :: os).isPrefixOf (o :: os) = true :=
        List.isPrefixOf_iff_prefix.2 (List.prefix_refl _)
      simp only [if_neg hon, List.isEmpty_cons, Bool.false_eq_true, if_false, replaceFrom, hp,
        if_true, List.length_cons, Nat.add_sub_cancel]
      rw [replaceFrom_skip_all (o :: os) new os os.length (Nat.le_refl _), List.append_nil]

theorem fieldsFrom_word (w : GoString) (hw : ∀ c ∈ w, IsSpace c = false) :
    ∀ cur rest : GoString, fieldsFrom cur (w ++ rest) = fieldsFrom (cur ++ w) rest := by
  induction w with
  | nil => intro cur rest; simp
  | cons c cs ih =>
    intro cur rest
    have hc : IsSpace c = false := hw c (List.mem_cons_self _ _)
    have hcs : ∀ d ∈ cs, IsSpace d = false := fun d hd => hw d (List.mem_cons_of_mem _ hd)
    simp only [List.cons_append, fieldsFrom, List.append_eq, hc, Bool.false_eq_true, if_false]
    rw [ih hcs (cur ++ [c]) rest, List.append_assoc, List.singleton_append]

theorem Fields_word_sep (w rest : GoString) (sp : Char) (hne : w ≠ [])
    (hw : ∀ c ∈ w, IsSpace c = false) (hsp : IsSpace sp = true) :
    Fields (w ++ sp :: rest) = w :: Fields rest := by
  have he : w.isEmpty = false := by cases w with
    | nil => exact absurd rfl hne
    | cons _ _ => rfl
  unfold Fields
  rw [fieldsFrom_word w hw [] (sp :: rest), List.nil_append]
  simp only [fieldsFrom, hsp, if_true, he, Bool.false_eq_true, if_false]

/-! ## The node arguments -/

/-- The argument string of the reader role after both substitutions, for a resolved
config path without whitespace and without placeholder: the path stays one word. -/
theorem reader_template_fields (P X D : GoString) (hne : P ≠ [])
    (hword : ∀ c ∈ P, IsSpace c = false)
    (hextra : ¬ "{extra-arg}".toList <:+: P) (hdir : ¬ "{node-data-dir}".toList <:+: P) :
    Fields (Replace
        (Replace ("--config ".toList ++ P ++ " {extra-arg}".toList) "{extra-arg}".toList X)
        "{node-data-dir}".toList D) =
      "--config".toList :: P :: Fields (Replace X "{node-data-dir}".toList D) := by
  have hshape : "--config ".toList ++ P ++ " {extra-arg}".toList =
      "--config".toList ++ ' ' :: (P ++ ' ' :: "{extra-arg}".toList) := by
    simp
  have h1 : Replace ("--config ".toList ++ P ++ " {extra-arg}".toList) "{extra-arg}".toList X =
      "--config".toList ++ ' ' :: (P ++ ' ' :: X) := by
    rw [hshape, Replace_sep _ _ _ _ _ (by decide) (by decide),
      Replace_sep _ _ _ _ _ (by decide) (by decide),
      Replace_of_not_infix P _ _ (by decide) hextra,
      Replace_of_not_infix "--config".toList _ _ (by decide) (by decide),
      Replace_pattern _ _ (by decide)]
  rw [h1, Replace_sep _ _ _ _ _ (by decide) (by decide),
    Replace_sep _ _ _ _ _ (by decide) (by decide),
    Replace_of_not_infix P _ _ (by decide) hdir,
    Replace_of_not_infix "--config".toList _ _ (by decide) (by decide),
    Fields_word_sep _ _ _ (by decide) (by decide) (by decide),
    Fields_word_sep P _ _ hne hword (by decide)]

/-- For a resolved config path that is a single word without placeholder, the
reader role gets the default arguments `--config <path>`, alone when `args` is
empty, followed by the fields of the rest of `args` when it starts with `+`. -/
theorem buildNodeArguments_defaults (Abs : GoString → Except GoError GoString)
    (nodeDataDir nodeConfigFile P : GoString) (hAbs : Abs nodeConfigFile = .ok P)
    (hne : P ≠ []) (hword : ∀ c ∈ P, IsSpace c = false)
    (hextra : ¬ "{extra-arg}".toList <:+: P) (hdir : ¬ "{node-data-dir}".toList <:+: P) :
    buildNodeArguments Abs nodeDataDir nodeConfigFile "reader".toList [] =
        .ok ["--config".toList, P] ∧
      ∀ extra : GoString,
        buildNodeArguments Abs nodeDataDir nodeConfigFile "reader".toList ('+' :: extra) =
          .ok ("--config".toList :: P ::
            Fields (Replace extra "{node-data-dir}".toList nodeDataDir)) := by
  refine ⟨?_, ?_⟩
  · have hf := reader_template_fields P [] nodeDataDir hne hword hextra hdir
    have hnil : Replace [] "{node-data-dir}".toList nodeDataDir = [] := by
      unfold Replace
      split <;> rfl
    rw [hnil] at hf
    simp only [buildNodeArguments, hAbs, typeRoles, if_true, HasPrefix, List.isPrefixOf,
      Bool.false_eq_true, if_false, hf]
    rfl
  · intro extra
    have hf := reader_template_fields P extra nodeDataDir hne hword hextra hdir
    have hpre : HasPrefix ('+' :: extra) "+".toList = true := by
      simp [HasPrefix, List.isPrefixOf]
    simp only [buildNodeArguments, hAbs, typeRoles, if_true, hpre, List.drop_succ_cons,
      List.drop_zero, hf]

theorem buildNodeArguments_defaults_witness :
    buildNodeArguments (fun p => .ok p) "/fh/reader/data".toList
        "/fh/reader/data/node.yaml".toList "reader".toList [] =
      .ok ["--config".toList, "/fh/reader/data/node.yaml".toList] ∧
    buildNodeArguments (fun p => .ok p) "/fh/reader/data".toList
        "/fh/reader/data/node.yaml".toList "reader".toList "+--db {node-data-dir}/db".toList =
      .ok ["--config".toList, "/fh/reader/data/node.yaml".toList, "--db".toList,
        "/fh/reader/data/db".toList] :=
  have hw := buildNodeArguments_defaults (fun p => .ok p) "/fh/reader/data".toList
    "/fh/reader/data/node.yaml".toList "/fh/reader/data/node.yaml".toList rfl
    (by decide) (by decide) (by decide) (by decide)
  ⟨hw.1, hw.2 "--db {node-data-dir}/db".toList⟩

/-- C7: for the reader role and a non-empty `args` that does not start with `+`, the
result is the fields of `args` with every `{node-data-dir}` replaced by the node
data directory, whatever the config file path and its resolution are. -/
theorem buildNodeArguments_override (Abs : GoString → Except GoError GoString)
    (nodeDataDir nodeConfigFile args : GoString) (hne : args ≠ [])
    (hplus : HasPrefix args "+".toList = false) :
    buildNodeArguments Abs nodeDataDir nodeConfigFile "reader".toList args =
        .ok (Fields (Replace args "{node-data-dir}".toList nodeDataDir)) ∧
      ∀ (Abs2 : GoString → Except GoError GoString) (nodeConfigFile2 : GoString),
        buildNodeArguments Abs2 nodeDataDir nodeConfigFile2 "reader".toList args =
          buildNodeArguments Abs nodeDataDir nodeConfigFile "reader".toList args := by
  have key : ∀ (A : GoString → Except GoError GoString) (c : GoString),
      buildNodeArguments A nodeDataDir c "reader".toList args =
        .ok (Fields (Replace args "{node-data-dir}".toList nodeDataDir)) := by
    intro A c
    simp only [buildNodeArguments, typeRoles, if_true, hplus, Bool.false_eq_true, if_false,
      if_neg hne]
  exact ⟨key Abs nodeConfigFile, fun A c => (key A c).trans (key Abs nodeConfigFile).symm⟩

theorem buildNodeArguments_override_witness :
    buildNodeArguments (fun p => .ok p) "/fh/reader/data".toList
        "/fh/reader/data/node.yaml".toList "reader".toList
        "start  --db {node-data-dir}/db".toList =
      .ok ["start".toList, "--db".toList, "/fh/reader/data/db".toList] :=
  (buildNodeArguments_override (fun p => .ok p) "/fh/reader/data".toList
    "/fh/reader/data/node.yaml".toList "start  --db {node-data-dir}/db".toList
    (by decide) (by decide)).1

/-- C6, at a config path with a blank in it: the arguments appended with `+` come
after three default arguments, the path being cut in two, not after
`--config <path>`. -/
theorem buildNodeArguments_append_blank_path :
    buildNodeArguments (fun p => .ok p) "/srv/my data/reader/data".toList
        "/srv/my data/reader/data/node.yaml".toList "reader".toList "+--verbose".toList =
      .ok ["--config".toList, "/srv/my".toList, "data/reader/data/node.yaml".toList,
        "--verbose".toList] ∧
    buildNodeArguments (fun p => .ok p) "/srv/my data/reader/data".toList
        "/srv/my data/reader/data/node.yaml".toList "reader".toList "+--verbose".toList ≠
      .ok (["--config".toList, "/srv/my data/reader/data/node.yaml".toList] ++
        Fields (Replace "--verbose".toList "{node-data-dir}".toList
          "/srv/my data/reader/data".toList)) := by
  refine ⟨rfl, ?_⟩
  intro h
  have h2 := Except.ok.inj h
  revert h2
  decide

/-- C8, at a config path with a blank in it: with empty `args` the result has three
arguments, the path being cut in two, not the two arguments `--config <path>`. -/
theorem buildNodeArguments_default_blank_path :
    buildNodeArguments (fun p => .ok p) "/srv/my data/reader/data".toList
        "/srv/my data/reader/data/node.yaml".toList "reader".toList [] =
      .ok ["--config".toList, "/srv/my".toList, "data/reader/data/node.yaml".toList] ∧
    buildNodeArguments (fun p => .ok p) "/srv/my data/reader/data".toList
        "/srv/my data/reader/data/node.yaml".toList "reader".toList [] ≠
      .ok ["--config".toList, "/srv/my data/reader/data/node.yaml".toList] ∧
    blankDirHost.nodeArguments "reader-node-".toList "reader".toList =
      .ok ["--config".toList, "/srv/my".toList, "data/reader/data/node.yaml".toList] := by
  refine ⟨rfl, ?_, rfl⟩
  intro h
  have h2 := Except.ok.inj h
  revert h2
  decide

end FirehoseSui
